import Mathlib

/-!
Verification of the Cube ADBC driver's native wire protocol client,
message codec, Arrow IPC reader and SQL-type mapping.

The definitions below are a shallow embedding of the C++ sources:
  - `driver/cube/connection.cc` (native_protocol message codec),
  - the `NativeClient` implementation (framed transport and query loop),
  - `driver/cube/arrow_reader.cc` (`CubeArrowReader`),
  - `driver/cube/cube_types.cc` (`CubeTypeMapper`).

Byte strings are modelled as `List Nat`, one element per byte; machine
integer casts are explicit `% 2^w` operations.
-/

/-- A byte string: each element is one byte (0..255) of the wire data. -/
abbrev Bytes := List Nat

/-- Bytes of an ASCII/UTF-8 string literal, for error messages and type names. -/
def strBytes (s : String) : Bytes := s.toList.map Char.toNat

namespace MessageCodec

/-- `MessageCodec::PutU32`: big-endian 4-byte encoding of the low 32 bits
(the `uint32_t` parameter truncates wider arguments, e.g. `size_t` casts). -/
def PutU32 (v : Nat) : Bytes :=
  [v / 16777216 % 256, v / 65536 % 256, v / 256 % 256, v % 256]

/-- `MessageCodec::PutI64`: the `int64_t` is reinterpreted as `uint64_t`
(two's complement) and written as 8 big-endian bytes. -/
def PutI64 (v : Int) : Bytes :=
  let w := (v % 18446744073709551616).toNat
  [w / 72057594037927936 % 256, w / 281474976710656 % 256,
   w / 1099511627776 % 256, w / 4294967296 % 256,
   w / 16777216 % 256, w / 65536 % 256, w / 256 % 256, w % 256]

/-- `MessageCodec::PutU8`: one byte (the `uint8_t` parameter truncates). -/
def PutU8 (v : Nat) : Bytes := [v % 256]

/-- `MessageCodec::PutString`: u32 length then the raw bytes. -/
def PutString (s : Bytes) : Bytes := PutU32 s.length ++ s

/-- `MessageCodec::PutOptionalString`: presence byte 1 + string when non-empty,
single presence byte 0 otherwise. -/
def PutOptionalString (s : Bytes) : Bytes :=
  if s.isEmpty then PutU8 0 else PutU8 1 ++ PutString s

/-- `MessageCodec::PutBytes`: u32 length then the raw bytes. -/
def PutBytes (b : Bytes) : Bytes := PutU32 b.length ++ b

/-- `MessageCodec::GetU32`: read 4 big-endian bytes; throws on shortage. -/
def GetU32 : Bytes → Except String (Nat × Bytes)
  | b0 :: b1 :: b2 :: b3 :: rest =>
      .ok (((b0 * 256 + b1) * 256 + b2) * 256 + b3, rest)
  | _ => .error "Insufficient data for U32"

/-- `MessageCodec::GetI64`: read 8 big-endian bytes into a `uint64_t`,
reinterpreted as `int64_t`. -/
def GetI64 : Bytes → Except String (Int × Bytes)
  | b0 :: b1 :: b2 :: b3 :: b4 :: b5 :: b6 :: b7 :: rest =>
      let w := ((((((b0 * 256 + b1) * 256 + b2) * 256 + b3) * 256 + b4) * 256
                 + b5) * 256 + b6) * 256 + b7
      .ok (if w < 9223372036854775808 then (w : Int)
           else (w : Int) - 18446744073709551616, rest)
  | _ => .error "Insufficient data for I64"

/-- `MessageCodec::GetU8`: read one byte; throws on shortage. -/
def GetU8 : Bytes → Except String (Nat × Bytes)
  | b :: rest => .ok (b, rest)
  | _ => .error "Insufficient data for U8"

/-- `MessageCodec::GetString`: u32 length then that many bytes. -/
def GetString (data : Bytes) : Except String (Bytes × Bytes) := do
  let (len, rest) ← GetU32 data
  if rest.length < len then throw "Insufficient data for string"
  else pure (rest.take len, rest.drop len)

/-- `MessageCodec::GetOptionalString`: presence byte, then a string when the
byte is non-zero; an absent optional decodes to the empty string. -/
def GetOptionalString (data : Bytes) : Except String (Bytes × Bytes) := do
  let (has_value, rest) ← GetU8 data
  if has_value ≠ 0 then GetString rest
  else pure ([], rest)

/-- `MessageCodec::GetBytes`: u32 length then that many bytes. -/
def GetBytes (data : Bytes) : Except String (Bytes × Bytes) := do
  let (len, rest) ← GetU32 data
  if rest.length < len then throw "Insufficient data for bytes"
  else pure (rest.take len, rest.drop len)

end MessageCodec

/-- `HandshakeRequest` message (tag 0x01). -/
structure HandshakeRequest where
  version : Nat
  deriving DecidableEq, Repr

/-- `HandshakeRequest::Encode`: frame = u32 payload length + payload. -/
def HandshakeRequest.Encode (m : HandshakeRequest) : Bytes :=
  let payload := MessageCodec.PutU8 1 ++ MessageCodec.PutU32 m.version
  MessageCodec.PutU32 payload.length ++ payload

/-- `HandshakeResponse` message (tag 0x02). -/
structure HandshakeResponse where
  version : Nat
  server_version : Bytes
  deriving DecidableEq, Repr

/-- `HandshakeResponse::Encode`. -/
def HandshakeResponse.Encode (m : HandshakeResponse) : Bytes :=
  let payload := MessageCodec.PutU8 2 ++ MessageCodec.PutU32 m.version
                 ++ MessageCodec.PutString m.server_version
  MessageCodec.PutU32 payload.length ++ payload

/-- `HandshakeResponse::Decode` (input is the frame payload, after the
4-byte length prefix has been skipped). -/
def HandshakeResponse.Decode (data : Bytes) : Except String HandshakeResponse := do
  let (msg_type, r1) ← MessageCodec.GetU8 data
  if msg_type ≠ 2 then
    throw "Invalid message type for HandshakeResponse"
  else do
    let (version, r2) ← MessageCodec.GetU32 r1
    let (server_version, _) ← MessageCodec.GetString r2
    pure { version := version, server_version := server_version }

/-- `AuthRequest` message (tag 0x03); `database` empty means absent. -/
structure AuthRequest where
  token : Bytes
  database : Bytes
  deriving DecidableEq, Repr

/-- `AuthRequest::Encode`: tag, token string, optional database string. -/
def AuthRequest.Encode (m : AuthRequest) : Bytes :=
  let payload := MessageCodec.PutU8 3 ++ MessageCodec.PutString m.token
                 ++ MessageCodec.PutOptionalString m.database
  MessageCodec.PutU32 payload.length ++ payload

/-- `AuthResponse` message (tag 0x04). -/
structure AuthResponse where
  success : Bool
  session_id : Bytes
  deriving DecidableEq, Repr

/-- `AuthResponse::Encode`. -/
def AuthResponse.Encode (m : AuthResponse) : Bytes :=
  let payload := MessageCodec.PutU8 4 ++ MessageCodec.PutU8 (if m.success then 1 else 0)
                 ++ MessageCodec.PutString m.session_id
  MessageCodec.PutU32 payload.length ++ payload

/-- `AuthResponse::Decode`. -/
def AuthResponse.Decode (data : Bytes) : Except String AuthResponse := do
  let (msg_type, r1) ← MessageCodec.GetU8 data
  if msg_type ≠ 4 then
    throw "Invalid message type for AuthResponse"
  else do
    let (success, r2) ← MessageCodec.GetU8 r1
    let (session_id, _) ← MessageCodec.GetString r2
    pure { success := success ≠ 0, session_id := session_id }

/-- `QueryRequest` message (tag 0x10). -/
structure QueryRequest where
  sql : Bytes
  deriving DecidableEq, Repr

/-- `QueryRequest::Encode`. -/
def QueryRequest.Encode (m : QueryRequest) : Bytes :=
  let payload := MessageCodec.PutU8 16 ++ MessageCodec.PutString m.sql
  MessageCodec.PutU32 payload.length ++ payload

/-- `QueryResponseSchema` message (tag 0x11). -/
structure QueryResponseSchema where
  arrow_ipc_schema : Bytes
  deriving DecidableEq, Repr

/-- `QueryResponseSchema::Encode`. -/
def QueryResponseSchema.Encode (m : QueryResponseSchema) : Bytes :=
  let payload := MessageCodec.PutU8 17 ++ MessageCodec.PutBytes m.arrow_ipc_schema
  MessageCodec.PutU32 payload.length ++ payload

/-- `QueryResponseSchema::Decode`. -/
def QueryResponseSchema.Decode (data : Bytes) : Except String QueryResponseSchema := do
  let (msg_type, r1) ← MessageCodec.GetU8 data
  if msg_type ≠ 17 then
    throw "Invalid message type for QueryResponseSchema"
  else do
    let (b, _) ← MessageCodec.GetBytes r1
    pure { arrow_ipc_schema := b }

/-- `QueryResponseBatch` message (tag 0x12). -/
structure QueryResponseBatch where
  arrow_ipc_batch : Bytes
  deriving DecidableEq, Repr

/-- `QueryResponseBatch::Encode`. -/
def QueryResponseBatch.Encode (m : QueryResponseBatch) : Bytes :=
  let payload := MessageCodec.PutU8 18 ++ MessageCodec.PutBytes m.arrow_ipc_batch
  MessageCodec.PutU32 payload.length ++ payload

/-- `QueryResponseBatch::Decode`. -/
def QueryResponseBatch.Decode (data : Bytes) : Except String QueryResponseBatch := do
  let (msg_type, r1) ← MessageCodec.GetU8 data
  if msg_type ≠ 18 then
    throw "Invalid message type for QueryResponseBatch"
  else do
    let (b, _) ← MessageCodec.GetBytes r1
    pure { arrow_ipc_batch := b }

/-- `QueryComplete` message (tag 0x13). -/
structure QueryComplete where
  rows_affected : Int
  deriving DecidableEq, Repr

/-- `QueryComplete::Encode`. -/
def QueryComplete.Encode (m : QueryComplete) : Bytes :=
  let payload := MessageCodec.PutU8 19 ++ MessageCodec.PutI64 m.rows_affected
  MessageCodec.PutU32 payload.length ++ payload

/-- `QueryComplete::Decode`. -/
def QueryComplete.Decode (data : Bytes) : Except String QueryComplete := do
  let (msg_type, r1) ← MessageCodec.GetU8 data
  if msg_type ≠ 19 then
    throw "Invalid message type for QueryComplete"
  else do
    let (rows, _) ← MessageCodec.GetI64 r1
    pure { rows_affected := rows }

/-- `ErrorMessage` message (tag 0xFF). -/
structure ErrorMessage where
  code : Bytes
  message : Bytes
  deriving DecidableEq, Repr

/-- `ErrorMessage::Encode`. -/
def ErrorMessage.Encode (m : ErrorMessage) : Bytes :=
  let payload := MessageCodec.PutU8 255 ++ MessageCodec.PutString m.code
                 ++ MessageCodec.PutString m.message
  MessageCodec.PutU32 payload.length ++ payload

/-- `ErrorMessage::Decode`. -/
def ErrorMessage.Decode (data : Bytes) : Except String ErrorMessage := do
  let (msg_type, r1) ← MessageCodec.GetU8 data
  if msg_type ≠ 255 then
    throw "Invalid message type for ErrorMessage"
  else do
    let (code, r2) ← MessageCodec.GetString r1
    let (message, _) ← MessageCodec.GetString r2
    pure { code := code, message := message }

/-! ### Framed transport: `NativeClient::ReadMessage` -/

/-- Result of `NativeClient::ReadMessage`: either a full frame (4-byte
big-endian length prefix plus payload) and the remaining inbound bytes, or a
failure (the C++ returns an empty vector after setting the error message). -/
inductive ReadMsgResult where
  | ok (frame : Bytes) (rest : Bytes)
  | fail (errMsg : Bytes)
  deriving DecidableEq, Repr

/-- `NativeClient::ReadMessage`: read the 4-byte big-endian length prefix,
reject length 0 or above the 100 MiB cap, then read the payload. The socket is
modelled as the list of bytes the peer will deliver; running out of bytes is
the peer closing mid-frame. -/
def readMessage (inbound : Bytes) : ReadMsgResult :=
  match inbound with
  | b0 :: b1 :: b2 :: b3 :: rest =>
      let length := ((b0 * 256 + b1) * 256 + b2) * 256 + b3
      if length = 0 ∨ length > 104857600 then
        .fail (strBytes ("Invalid message length: " ++ toString length))
      else if rest.length < length then
        .fail (strBytes "Connection closed by server")
      else .ok (b0 :: b1 :: b2 :: b3 :: rest.take length) (rest.drop length)
  | _ => .fail (strBytes "Connection closed by server")

/-! ### Arrow IPC reader: `CubeArrowReader` (arrow_reader.cc)

The FlatBuffers metadata encoding is generated Apache Arrow format code
(`format/generated/Message_generated.h`, `Schema_generated.h`) that is not part
of this repository's sources, so its decoded content is modelled from the spec.
-/

/-- nanoarrow status code for success. -/
def NANOARROW_OK : Nat := 0

/-- errno code used by the reader for invalid data. -/
def EINVAL : Nat := 22

/-- errno code used by the reader for end of stream (no more messages). -/
def ENOMSG : Nat := 42

/-- The subset of nanoarrow `ArrowType` values used by the driver. -/
inductive ArrowTypeT where
  | na | bool | int8 | int16 | int32 | int64 | uint8 | uint16 | uint32 | uint64
  | float | double | string | binary | date32 | date64 | time64 | timestamp
  | uninitialized
  deriving DecidableEq, Repr

/-- Modelled from the spec: the FlatBuffers `Type` union tag of a Schema field
(§4.3.2; the generated FlatBuffers code is not in the repository sources). -/
inductive FBType where
  | int | floatingPoint | bool | utf8 | binary | date | time | timestamp | other
  deriving DecidableEq, Repr

/-- Modelled from the spec: one Schema field as decodable from the FlatBuffer
(§4.3.2: name, nullable, type_type). -/
structure FBField where
  name : Bytes
  type_type : FBType
  nullable : Bool
  deriving DecidableEq, Repr

/-- Modelled from the spec: the decoded content of a FlatBuffers-encoded Arrow
IPC `Message` (§4.3.2): either a Schema (ordered fields) or a RecordBatch (row
count plus ordered (offset, length) buffer descriptors into the body). -/
inductive FBMessage where
  | schema (fields : List FBField)
  | recordBatch (length : Nat) (buffers : List (Nat × Nat))
  deriving DecidableEq, Repr

/-- Tag byte of an `FBType` in the modelled metadata serialization. -/
def FBType.toTag : FBType → Nat
  | .int => 1 | .floatingPoint => 2 | .bool => 3 | .utf8 => 4 | .binary => 5
  | .date => 6 | .time => 7 | .timestamp => 8 | .other => 9

/-- Inverse of `FBType.toTag`. -/
def FBType.ofTag (t : Nat) : Option FBType :=
  if t = 1 then some .int else if t = 2 then some .floatingPoint
  else if t = 3 then some .bool else if t = 4 then some .utf8
  else if t = 5 then some .binary else if t = 6 then some .date
  else if t = 7 then some .time else if t = 8 then some .timestamp
  else if t = 9 then some .other else none

/-- 4 little-endian bytes of the low 32 bits of `v`. -/
def putLE32 (v : Nat) : Bytes := [v % 256, v / 256 % 256, v / 65536 % 256, v / 16777216 % 256]

/-- Parse 4 little-endian bytes off the front of a list. -/
def parseLE32 : Bytes → Option (Nat × Bytes)
  | b0 :: b1 :: b2 :: b3 :: rest => some (b0 + b1 * 256 + b2 * 65536 + b3 * 16777216, rest)
  | _ => none

/-- Modelled from the spec: serialization of one field in the metadata
FlatBuffer (a concrete executable stand-in for the generated encoding). -/
def encodeFBField (f : FBField) : Bytes :=
  putLE32 f.name.length ++ f.name ++ [f.type_type.toTag, if f.nullable then 1 else 0]

/-- Modelled from the spec: serialization of a metadata `Message`. -/
def encodeFBMessage : FBMessage → Bytes
  | .schema fields => 1 :: putLE32 fields.length ++ (fields.map encodeFBField).flatten
  | .recordBatch len buffers =>
      2 :: putLE32 len ++ putLE32 buffers.length
        ++ (buffers.map (fun p => putLE32 p.1 ++ putLE32 p.2)).flatten

/-- Parse one serialized field. -/
def parseFBField (data : Bytes) : Option (FBField × Bytes) :=
  match parseLE32 data with
  | none => none
  | some (nameLen, r1) =>
      if r1.length < nameLen then none
      else
        match r1.drop nameLen with
        | t :: nb :: rest =>
            match FBType.ofTag t with
            | none => none
            | some ty =>
                if nb = 0 ∨ nb = 1 then some (⟨r1.take nameLen, ty, nb = 1⟩, rest)
                else none
        | _ => none

/-- Parse `n` serialized fields. -/
def parseFBFields : Nat → Bytes → Option (List FBField × Bytes)
  | 0, data => some ([], data)
  | n + 1, data =>
      match parseFBField data with
      | none => none
      | some (f, r) =>
          match parseFBFields n r with
          | none => none
          | some (fs, r2) => some (f :: fs, r2)

/-- Parse `n` serialized (offset, length) buffer descriptors. -/
def parseFBPairs : Nat → Bytes → Option (List (Nat × Nat) × Bytes)
  | 0, data => some ([], data)
  | n + 1, data =>
      match parseLE32 data with
      | none => none
      | some (a, r1) =>
          match parseLE32 r1 with
          | none => none
          | some (b, r2) =>
              match parseFBPairs n r2 with
              | none => none
              | some (ps, r3) => some ((a, b) :: ps, r3)

/-- Modelled from the spec: verify-and-decode of a metadata `Message`
FlatBuffer. Verification of an empty or truncated buffer fails, as the
flatbuffers verifier does (`VerifyMessageBuffer` on a zero-size buffer). -/
def parseFBMessage (data : Bytes) : Option FBMessage :=
  match data with
  | 1 :: rest =>
      (match parseLE32 rest with
       | none => none
       | some (n, r1) =>
           match parseFBFields n r1 with
           | none => none
           | some (fields, r2) => if r2.isEmpty then some (.schema fields) else none)
  | 2 :: rest =>
      (match parseLE32 rest with
       | none => none
       | some (len, r1) =>
           match parseLE32 r1 with
           | none => none
           | some (bn, r2) =>
               match parseFBPairs bn r2 with
               | none => none
               | some (buffers, r3) =>
                   if r3.isEmpty then some (.recordBatch len buffers) else none)
  | _ => none

/-- `ReadLE32` over the reader's buffer at a byte offset (out-of-range bytes
read as 0; the C++ only reads inside bounds-checked regions). -/
def readLE32 (buf : Bytes) (off : Nat) : Nat :=
  buf.getD off 0 + buf.getD (off + 1) 0 * 256 + buf.getD (off + 2) 0 * 65536
    + buf.getD (off + 3) 0 * 16777216

/-- `GetBit`: Arrow validity-bitmap bit test (`bitmap[i/8] & (1 << (i%8))`). -/
def GetBit (bitmap : Bytes) (i : Nat) : Bool :=
  bitmap.getD (i / 8) 0 / 2 ^ (i % 8) % 2 = 1

/-- `CubeArrowReader::MapFlatBufferTypeToArrow`: every FlatBuffer `Int` becomes
INT64 and every `FloatingPoint` becomes DOUBLE (the known precision-loss
simplification); unsupported tags map to UNINITIALIZED. -/
def MapFlatBufferTypeToArrow : FBType → ArrowTypeT
  | .int => .int64
  | .floatingPoint => .double
  | .bool => .bool
  | .utf8 => .string
  | .binary => .binary
  | .date => .date32
  | .time => .time64
  | .timestamp => .timestamp
  | .other => .uninitialized

/-- The mutable state of a `CubeArrowReader`. -/
structure CubeArrowReader where
  buffer : Bytes
  offset : Nat
  schema_initialized : Bool
  finished : Bool
  field_names : List Bytes
  field_types : List ArrowTypeT
  field_nullable : List Bool
  deriving DecidableEq, Repr

/-- One value slot of a materialized Arrow array: null, or the value's bytes
as copied out of the IPC body by the typed append path. -/
inductive Cell where
  | null
  | val (bytes : Bytes)
  deriving DecidableEq, Repr

/-- An Arrow-C-layout array as produced by the reader: `length`, `null_count`,
the appended cells, and per-field children for the struct array. -/
inductive ArrowArrayT where
  | mk (length : Nat) (null_count : Nat) (cells : List Cell)
       (children : List ArrowArrayT)
  deriving Repr

/-- `ArrowArray.length`. -/
def ArrowArrayT.length : ArrowArrayT → Nat
  | .mk l _ _ _ => l

/-- `ArrowArray.null_count`. -/
def ArrowArrayT.null_count : ArrowArrayT → Nat
  | .mk _ n _ _ => n

/-- The cells appended into the array. -/
def ArrowArrayT.cells : ArrowArrayT → List Cell
  | .mk _ _ c _ => c

/-- `ArrowArray.children`. -/
def ArrowArrayT.children : ArrowArrayT → List ArrowArrayT
  | .mk _ _ _ k => k

/-- `CubeArrowReader::ParseSchemaFlatBuffer`: verify and decode the Schema
message, extract per-field name / mapped Arrow type / nullability, and build
the struct schema (building a child of unsupported type fails). -/
def ParseSchemaFlatBuffer (fb : Bytes) :
    Except (Nat × Bytes) (List Bytes × List ArrowTypeT × List Bool) :=
  match parseFBMessage fb with
  | none => .error (EINVAL, strBytes "Invalid Schema FlatBuffer")
  | some (.recordBatch _ _) => .error (EINVAL, strBytes "Not a Schema message")
  | some (.schema fields) =>
      let names := fields.map (fun f => f.name)
      let types := fields.map (fun f => MapFlatBufferTypeToArrow f.type_type)
      let nullable := fields.map (fun f => f.nullable)
      if types.contains .uninitialized then
        .error (EINVAL, strBytes "Failed to set child type")
      else .ok (names, types, nullable)

/-- `CubeArrowReader::Init`: parse the leading Schema message of the Arrow IPC
stream, then advance the cursor past it to the next 8-byte boundary. -/
def CubeArrowReader.Init (buffer : Bytes) : Except (Nat × Bytes) CubeArrowReader :=
  if buffer.isEmpty then .error (EINVAL, strBytes "Empty Arrow IPC buffer")
  else if buffer.length < 8 then
    .error (EINVAL, strBytes "Buffer too small for schema message header")
  else
    let continuation := readLE32 buffer 0
    let msg_size := readLE32 buffer 4
    if continuation ≠ 4294967295 then
      .error (EINVAL, strBytes "Invalid continuation marker for schema")
    else
      match ParseSchemaFlatBuffer ((buffer.drop 8).take msg_size) with
      | .error e => .error e
      | .ok (names, types, nullable) =>
          let off0 := 8 + msg_size
          let off := if off0 % 8 ≠ 0 then off0 + (8 - off0 % 8) else off0
          .ok { buffer := buffer, offset := off, schema_initialized := true,
                finished := false, field_names := names, field_types := types,
                field_nullable := nullable }

/-- `CubeArrowReader::GetSchema`: fails with EINVAL before `Init`; afterwards
deep-copies the stored schema (field names, types, nullability). -/
def CubeArrowReader.GetSchema (r : CubeArrowReader) :
    Except Nat (List Bytes × List ArrowTypeT × List Bool) :=
  if ¬ r.schema_initialized then .error EINVAL
  else .ok (r.field_names, r.field_types, r.field_nullable)

/-- `CubeArrowReader::ExtractBuffer`: look up the (offset, length) descriptor
at `idx`; out-of-range yields a null pointer. The returned bytes are the body
suffix the C++ pointer addresses (reads past the described length are possible
there and read as 0 here). -/
def ExtractBuffer (buffers : List (Nat × Nat)) (idx : Nat) (body : Bytes) :
    Option (Bytes × Nat) :=
  match buffers.get? idx with
  | none => none
  | some (off, len) => some (body.drop off, len)

/-- Bytes `[off, off+len)` of a buffer, as read by a typed append. -/
def sliceBytes (buf : Bytes) (off len : Nat) : Bytes := (buf.drop off).take len

/-- The per-row append loop shared by every branch of
`BuildArrayForField`: row `i` appends its value when the validity buffer is
null (all valid) or bit `i` is set, and appends a null otherwise. -/
def appendCells (row_count : Nat) (validity : Option (Bytes × Nat))
    (value : Nat → Bytes) : List Cell :=
  (List.range row_count).map fun i =>
    match validity with
    | none => .val (value i)
    | some (vb, _) => if GetBit vb i then .val (value i) else .null

/-- Number of null cells (each `ArrowArrayAppendNull` bumps `null_count`). -/
def countNulls : List Cell → Nat
  | [] => 0
  | .null :: rest => countNulls rest + 1
  | .val _ :: rest => countNulls rest

/-- `ArrowArrayFinishBuildingDefault` on a child array: its `length` is the
number of appends performed and `null_count` the number of null appends. -/
def finishArray (cells : List Cell) : ArrowArrayT :=
  .mk cells.length (countNulls cells) cells []

/-- A fixed-width branch of `BuildArrayForField`: consume one data buffer and
append `row_count` elements of `w` bytes each. -/
def buildFixedWidth (w row_count : Nat) (buffers : List (Nat × Nat)) (body : Bytes)
    (validity : Option (Bytes × Nat)) (bi : Nat) : ArrowArrayT × Nat :=
  let data := ExtractBuffer buffers bi body
  let dataBytes := (data.map Prod.fst).getD []
  (finishArray (appendCells row_count validity (fun i => sliceBytes dataBytes (i * w) w)),
   bi + 1)

/-- The BOOL branch of `BuildArrayForField`: bit-packed data buffer. -/
def buildBoolArray (row_count : Nat) (buffers : List (Nat × Nat)) (body : Bytes)
    (validity : Option (Bytes × Nat)) (bi : Nat) : ArrowArrayT × Nat :=
  let data := ExtractBuffer buffers bi body
  let dataBytes := (data.map Prod.fst).getD []
  (finishArray (appendCells row_count validity
     (fun i => if GetBit dataBytes i then [1] else [0])), bi + 1)

/-- A variable-length branch (STRING / BINARY) of `BuildArrayForField`:
consume an i32 offsets buffer and a data buffer; value `i` spans
`offsets[i]` to `offsets[i+1]`. -/
def buildVarLen (row_count : Nat) (buffers : List (Nat × Nat)) (body : Bytes)
    (validity : Option (Bytes × Nat)) (bi : Nat) : ArrowArrayT × Nat :=
  let offs := ExtractBuffer buffers bi body
  let offsBytes := (offs.map Prod.fst).getD []
  let data := ExtractBuffer buffers (bi + 1) body
  let dataBytes := (data.map Prod.fst).getD []
  (finishArray (appendCells row_count validity (fun i =>
      sliceBytes dataBytes (readLE32 offsBytes (4 * i))
        (readLE32 offsBytes (4 * (i + 1)) - readLE32 offsBytes (4 * i)))),
   bi + 2)

/-- `CubeArrowReader::BuildArrayForField`: consume the validity buffer, then
dispatch on the field's Arrow type; unsupported types fail with EINVAL. The
returned `Nat` is the advanced buffer cursor (`buffer_index_inout`). -/
def BuildArrayForField (arrow_type : ArrowTypeT) (row_count : Nat)
    (buffers : List (Nat × Nat)) (body : Bytes) (buffer_index : Nat) :
    Except (Nat × Bytes) (ArrowArrayT × Nat) :=
  let validity := ExtractBuffer buffers buffer_index body
  let bi := buffer_index + 1
  match arrow_type with
  | .int8 => .ok (buildFixedWidth 1 row_count buffers body validity bi)
  | .int16 => .ok (buildFixedWidth 2 row_count buffers body validity bi)
  | .int32 => .ok (buildFixedWidth 4 row_count buffers body validity bi)
  | .int64 => .ok (buildFixedWidth 8 row_count buffers body validity bi)
  | .uint8 => .ok (buildFixedWidth 1 row_count buffers body validity bi)
  | .uint16 => .ok (buildFixedWidth 2 row_count buffers body validity bi)
  | .uint32 => .ok (buildFixedWidth 4 row_count buffers body validity bi)
  | .uint64 => .ok (buildFixedWidth 8 row_count buffers body validity bi)
  | .float => .ok (buildFixedWidth 4 row_count buffers body validity bi)
  | .double => .ok (buildFixedWidth 8 row_count buffers body validity bi)
  | .bool => .ok (buildBoolArray row_count buffers body validity bi)
  | .string => .ok (buildVarLen row_count buffers body validity bi)
  | .date32 => .ok (buildFixedWidth 4 row_count buffers body validity bi)
  | .date64 => .ok (buildFixedWidth 8 row_count buffers body validity bi)
  | .time64 => .ok (buildFixedWidth 8 row_count buffers body validity bi)
  | .timestamp => .ok (buildFixedWidth 8 row_count buffers body validity bi)
  | .binary => .ok (buildVarLen row_count buffers body validity bi)
  | _ => .error (EINVAL, strBytes "Unsupported Arrow type")

/-- The per-field loop of `ParseRecordBatchFlatBuffer`: build one child per
schema field, threading the buffer cursor; any failure aborts. -/
def BuildChildren (types : List ArrowTypeT) (row_count : Nat)
    (buffers : List (Nat × Nat)) (body : Bytes) (buffer_index : Nat) :
    Except (Nat × Bytes) (List ArrowArrayT × Nat) :=
  match types with
  | [] => .ok ([], buffer_index)
  | t :: rest =>
      match BuildArrayForField t row_count buffers body buffer_index with
      | .error e => .error e
      | .ok (arr, bi2) =>
          match BuildChildren rest row_count buffers body bi2 with
          | .error e => .error e
          | .ok (kids, bi3) => .ok (arr :: kids, bi3)

/-- `CubeArrowReader::ParseRecordBatchFlatBuffer`: verify and decode the
RecordBatch message, build one child array per schema field, then finish the
struct array with `length = row_count` and `null_count = 0`. -/
def ParseRecordBatchFlatBuffer (r : CubeArrowReader) (fb body : Bytes) :
    Except (Nat × Bytes) ArrowArrayT :=
  match parseFBMessage fb with
  | none => .error (EINVAL, strBytes "Invalid RecordBatch FlatBuffer")
  | some (.schema _) => .error (EINVAL, strBytes "Not a RecordBatch message")
  | some (.recordBatch row_count buffers) =>
      match BuildChildren r.field_types row_count buffers body 0 with
      | .error e => .error e
      | .ok (kids, _) => .ok (.mk row_count 0 [] kids)

/-- Result of `CubeArrowReader::GetNext`: nanoarrow status code, the produced
array on success, and the updated reader state. -/
structure GetNextResult where
  status : Nat
  array : Option ArrowArrayT
  reader : CubeArrowReader
  deriving Repr

/-- `CubeArrowReader::GetNext`: walk to the next IPC message after the schema
and parse it as a RecordBatch. The end-of-stream test from the source sits in
the `continuation != MAGIC` branch (where it can never fire), so a real EOS
marker (continuation 0xFFFFFFFF, length 0) falls through to the FlatBuffer
parse of a zero-length buffer. -/
def CubeArrowReader.GetNext (r : CubeArrowReader) : GetNextResult :=
  if ¬ r.schema_initialized then ⟨EINVAL, none, r⟩
  else if r.finished then ⟨ENOMSG, none, r⟩
  else if r.offset + 8 > r.buffer.length then ⟨ENOMSG, none, { r with finished := true }⟩
  else
    let continuation := readLE32 r.buffer r.offset
    let msg_size := readLE32 r.buffer (r.offset + 4)
    if continuation ≠ 4294967295 then
      if continuation = 4294967295 ∧ msg_size = 0 then
        ⟨ENOMSG, none, { r with finished := true }⟩
      else ⟨ENOMSG, none, { r with finished := true }⟩
    else
      let metadata_size := 8 + msg_size
      let body_offset0 := r.offset + metadata_size
      let body_offset := if body_offset0 % 8 ≠ 0 then body_offset0 + (8 - body_offset0 % 8)
                         else body_offset0
      match ParseRecordBatchFlatBuffer r ((r.buffer.drop (r.offset + 8)).take msg_size)
          (r.buffer.drop body_offset) with
      | .error e => ⟨e.1, none, r⟩
      | .ok arr => ⟨NANOARROW_OK, some arr, { r with finished := true }⟩

/-- What `CubeArrowStreamGetNext` communicates to the Arrow C Stream caller:
a populated batch, end-of-stream (the out array is zeroed: `release = null`,
return value `NANOARROW_OK`), or an error status. -/
inductive StreamNextOut where
  | batch (arr : ArrowArrayT)
  | eosZeroed
  | err (status : Nat)
  deriving Repr

/-- `CubeArrowStreamGetNext`: ENOMSG from the reader is translated to
end-of-stream (null release, success); any other status is passed through. -/
def CubeArrowStreamGetNext (r : CubeArrowReader) : StreamNextOut × CubeArrowReader :=
  let res := r.GetNext
  if res.status = ENOMSG then (.eosZeroed, res.reader)
  else if res.status = NANOARROW_OK then
    match res.array with
    | some arr => (.batch arr, res.reader)
    | none => (.batch (.mk 0 0 [] []), res.reader)
  else (.err res.status, res.reader)

/-! ### `NativeClient` query execution -/

/-- The ADBC status codes surfaced by the native client. -/
inductive AdbcStatusCode where
  | ok | unknown | notImplemented | invalidArgument | invalidState | invalidData
  | io | internal | unauthenticated
  deriving DecidableEq, Repr

/-- The caller-supplied `ArrowArrayStream` handle: arbitrary caller garbage
before the client touches it, zero-initialized (all function pointers and
`private_data` null) after the `memset`, or exporting a live reader. -/
inductive StreamState where
  | uninit
  | zeroed
  | exported (reader : CubeArrowReader)
  deriving DecidableEq, Repr

/-- `NativeClient` connection state. -/
structure NativeClient where
  socket_fd : Int
  authenticated : Bool
  session_id : Bytes
  server_version : Bytes
  deriving DecidableEq, Repr

/-- `NativeClient::IsConnected`. -/
def NativeClient.IsConnected (c : NativeClient) : Bool := c.socket_fd ≥ 0

/-- Outcome of the response loop inside `NativeClient::ExecuteQuery`. -/
inductive QueryLoopOut where
  | complete (acc : Bytes) (rest : Bytes)
  | fail (status : AdbcStatusCode) (msg : Bytes)
  deriving DecidableEq, Repr

/-- The receive loop of `NativeClient::ExecuteQuery`: read frames until
QueryComplete or an error. A schema-only message is skipped; a batch message
replaces the accumulated Arrow IPC bytes; an Error frame is decoded and
surfaced as `Query error [<code>]: <message>` with status UNKNOWN. Structural
recursion on a fuel bound: each successfully read frame consumes at least 5
inbound bytes, so the wrapper's `inbound.length + 1` fuel never runs out (a
failed read ends the loop the same way on either path). -/
def QueryLoopF : Nat → Bytes → Bytes → QueryLoopOut
  | 0, _, _ => .fail .io (strBytes "Empty query response")
  | fuel + 1, inbound, acc =>
      match readMessage inbound with
      | .fail _ => .fail .io (strBytes "Empty query response")
      | .ok frame rest =>
          let msg_type := frame.getD 4 0
          if msg_type = 17 then QueryLoopF fuel rest acc
          else if msg_type = 18 then
            match QueryResponseBatch.Decode (frame.drop 4) with
            | .error e => .fail .invalidData (strBytes ("Failed to decode response: " ++ e))
            | .ok resp => QueryLoopF fuel rest resp.arrow_ipc_batch
          else if msg_type = 19 then
            match QueryComplete.Decode (frame.drop 4) with
            | .error e => .fail .invalidData (strBytes ("Failed to decode response: " ++ e))
            | .ok _ => .complete acc rest
          else if msg_type = 255 then
            if frame.length < 5 then .fail .invalidData (strBytes "Error message too short")
            else
              match ErrorMessage.Decode (frame.drop 4) with
              | .error e =>
                  .fail .unknown (strBytes ("Query failed (error message decode failed): " ++ e))
              | .ok resp =>
                  .fail .unknown (strBytes "Query error [" ++ resp.code ++ strBytes "]: "
                    ++ resp.message)
          else .fail .invalidData (strBytes ("Unexpected message type: " ++ toString msg_type))

/-- The receive loop entered with enough fuel for the whole inbound stream. -/
def QueryLoop (inbound : Bytes) (acc : Bytes) : QueryLoopOut :=
  QueryLoopF (inbound.length + 1) inbound acc

/-- Everything `NativeClient::ExecuteQuery` leaves behind: the returned status
code, the client state, the caller's stream handle, and the `AdbcError`
message (if one was set). -/
structure ExecResult where
  status : AdbcStatusCode
  client : NativeClient
  out : StreamState
  errMsg : Option Bytes
  deriving DecidableEq, Repr

/-- `NativeClient::ExecuteQuery`: precondition checks, send the query
(`write_result` is the outcome of `WriteMessage`), zero-initialize the caller's
stream handle, run the receive loop, then parse the accumulated Arrow IPC
bytes and export the reader into the handle. -/
def NativeClient.ExecuteQuery (c : NativeClient) (sql : Bytes)
    (write_result : AdbcStatusCode) (inbound : Bytes) (out0 : StreamState) : ExecResult :=
  if !c.IsConnected then ⟨.invalidState, c, out0, some (strBytes "Not connected")⟩
  else if !c.authenticated then ⟨.unauthenticated, c, out0, some (strBytes "Not authenticated")⟩
  else if write_result ≠ .ok then ⟨write_result, c, out0, some (strBytes "Socket write error")⟩
  else
    match QueryLoop inbound [] with
    | .fail st msg => ⟨st, c, .zeroed, some msg⟩
    | .complete acc _ =>
        if acc.isEmpty then ⟨.invalidData, c, .zeroed, some (strBytes "No Arrow IPC data received")⟩
        else
          match CubeArrowReader.Init acc with
          | .error e =>
              ⟨.internal, c, .zeroed, some (strBytes "Failed to initialize Arrow reader: " ++ e.2)⟩
          | .ok reader => ⟨.ok, c, .exported reader, none⟩

/-! ### SQL-type name mapping (cube_types.cc) -/

/-- `std::isspace` (C locale) on a byte. -/
def isspaceByte (c : Nat) : Bool := c = 32 ∨ (9 ≤ c ∧ c ≤ 13)

/-- `std::tolower` (C locale) on a byte. -/
def tolowerByte (c : Nat) : Nat := if 65 ≤ c ∧ c ≤ 90 then c + 32 else c

/-- `NormalizeTypeName`: trim leading and trailing whitespace, then lowercase. -/
def NormalizeTypeName (s : Bytes) : Bytes :=
  (((s.dropWhile isspaceByte).reverse.dropWhile isspaceByte).reverse).map tolowerByte

/-- The if-chain of `CubeTypeMapper::MapCubeTypeToArrowType` applied to an
already-normalized name (the function computes `normalized` once and then runs
this chain). -/
def MapNormalizedType (n : Bytes) : ArrowTypeT :=
  if n = strBytes "bigint" ∨ n = strBytes "int8" then .int64
  else if n = strBytes "integer" ∨ n = strBytes "int" ∨ n = strBytes "int4" then .int32
  else if n = strBytes "smallint" ∨ n = strBytes "int2" then .int16
  else if n = strBytes "tinyint" ∨ n = strBytes "int1" then .int8
  else if n = strBytes "ubigint" ∨ n = strBytes "uint8" then .uint64
  else if n = strBytes "uinteger" ∨ n = strBytes "uint" ∨ n = strBytes "uint4" then .uint32
  else if n = strBytes "usmallint" ∨ n = strBytes "uint2" then .uint16
  else if n = strBytes "utinyint" ∨ n = strBytes "uint1" then .uint8
  else if n = strBytes "double" ∨ n = strBytes "double precision" ∨ n = strBytes "float8" then
    .double
  else if n = strBytes "real" ∨ n = strBytes "float" ∨ n = strBytes "float4" then .float
  else if n = strBytes "boolean" ∨ n = strBytes "bool" then .bool
  else if n = strBytes "varchar" ∨ n = strBytes "character varying" ∨ n = strBytes "text"
      ∨ n = strBytes "char" ∨ n = strBytes "string" then .string
  else if n = strBytes "bytea" ∨ n = strBytes "binary" ∨ n = strBytes "varbinary" then .binary
  else if n = strBytes "date" then .date32
  else if n = strBytes "time" ∨ n = strBytes "time without time zone"
      ∨ n = strBytes "time with time zone" then .time64
  else if n = strBytes "timestamp" ∨ n = strBytes "timestamp without time zone"
      ∨ n = strBytes "timestamp with time zone" ∨ n = strBytes "timestamptz" then .timestamp
  else if n = strBytes "numeric" ∨ n = strBytes "decimal" ∨ n = strBytes "number" then .string
  else if n = strBytes "json" ∨ n = strBytes "jsonb" then .string
  else if n = strBytes "uuid" then .string
  else .binary

/-- `CubeTypeMapper::MapCubeTypeToArrowType`: normalize, then map. -/
def MapCubeTypeToArrowType (cube_type : Bytes) : ArrowTypeT :=
  MapNormalizedType (NormalizeTypeName cube_type)

/-- The recognized (already-normalized) type names of the mapping if-chain. -/
def recognizedTypeNames : List Bytes :=
  [strBytes "bigint", strBytes "int8", strBytes "integer", strBytes "int", strBytes "int4",
   strBytes "smallint", strBytes "int2", strBytes "tinyint", strBytes "int1",
   strBytes "ubigint", strBytes "uint8", strBytes "uinteger", strBytes "uint",
   strBytes "uint4", strBytes "usmallint", strBytes "uint2", strBytes "utinyint",
   strBytes "uint1", strBytes "double", strBytes "double precision", strBytes "float8",
   strBytes "real", strBytes "float", strBytes "float4", strBytes "boolean", strBytes "bool",
   strBytes "varchar", strBytes "character varying", strBytes "text", strBytes "char",
   strBytes "string", strBytes "bytea", strBytes "binary", strBytes "varbinary",
   strBytes "date", strBytes "time", strBytes "time without time zone",
   strBytes "time with time zone", strBytes "timestamp",
   strBytes "timestamp without time zone", strBytes "timestamp with time zone",
   strBytes "timestamptz", strBytes "numeric", strBytes "decimal", strBytes "number",
   strBytes "json", strBytes "jsonb", strBytes "uuid"]


/-- Zero padding needed to align `n` to the next 8-byte boundary. -/
def pad8 (n : Nat) : Nat := if n % 8 ≠ 0 then 8 - n % 8 else 0

/-- An Arrow IPC metadata block: continuation marker 0xFFFFFFFF, LE32 message
size, the FlatBuffer bytes, zero padding to an 8-byte boundary. -/
def ipcBlock (fb : Bytes) : Bytes :=
  [255, 255, 255, 255] ++ putLE32 fb.length ++ fb ++ List.replicate (pad8 (8 + fb.length)) 0

/-- The Arrow IPC end-of-stream marker: continuation, then a zero length. -/
def ipcEOS : Bytes := [255, 255, 255, 255, 0, 0, 0, 0]

/-- Concrete IPC sequence for the empty stream: a valid one-field Schema
message followed immediately by the end-of-stream marker, no RecordBatch. -/
def c2buf : Bytes := ipcBlock (encodeFBMessage (.schema [⟨strBytes "a", .utf8, true⟩])) ++ ipcEOS

/-- Concrete Schema metadata with one nullable Int field named `answer`. -/
def c3schema : Bytes := encodeFBMessage (.schema [⟨strBytes "answer", .int, true⟩])

/-- Concrete RecordBatch metadata: length 1, a validity buffer at (0, 1) and a
data buffer at (8, 8). -/
def c3batch : Bytes := encodeFBMessage (.recordBatch 1 [(0, 1), (8, 8)])

/-- Concrete batch body: an all-ones validity byte (padded to 8) and the
8-byte little-endian value 42. -/
def c3body : Bytes := 255 :: List.replicate 7 0 ++ [42, 0, 0, 0, 0, 0, 0, 0]

/-- Concrete IPC sequence with one Schema and one RecordBatch. -/
def c3buf : Bytes := ipcBlock c3schema ++ ipcBlock c3batch ++ c3body


/-- The reader state `Init` produces for `c2buf`. -/
def c2reader : CubeArrowReader :=
  { buffer := c2buf, offset := 24, schema_initialized := true, finished := false,
    field_names := [strBytes "a"], field_types := [.string], field_nullable := [true] }

/-- The reader state `Init` produces for `c3buf`. -/
def c3reader : CubeArrowReader :=
  { buffer := c3buf, offset := 32, schema_initialized := true, finished := false,
    field_names := [strBytes "answer"], field_types := [.int64], field_nullable := [true] }

/-- The struct array the reader materializes from `c3buf`: one row, one INT64
child holding the little-endian bytes of 42. -/
def c3arr : ArrowArrayT :=
  .mk 1 0 [] [.mk 1 0 [.val [42, 0, 0, 0, 0, 0, 0, 0]] []]


/-! ### Codec round-trip lemmas -/

namespace MessageCodec

theorem drop4_PutU32 (v : Nat) (l : Bytes) : (PutU32 v ++ l).drop 4 = l := by
  simp [PutU32]

theorem bind_ok {α β : Type} (a : α) (f : α → Except String β) :
    (Except.ok a >>= f) = f a := rfl

theorem GetU8_PutU8 (v : Nat) (h : v < 256) (rest : Bytes) :
    GetU8 (PutU8 v ++ rest) = .ok (v, rest) := by
  simp [GetU8, PutU8, Nat.mod_eq_of_lt h]

theorem GetU32_PutU32 (v : Nat) (h : v < 4294967296) (rest : Bytes) :
    GetU32 (PutU32 v ++ rest) = .ok (v, rest) := by
  simp only [PutU32, List.cons_append, List.nil_append, GetU32, Except.ok.injEq,
    Prod.mk.injEq, and_true]
  omega

theorem GetI64_PutI64 (v : Int) (h1 : -9223372036854775808 ≤ v)
    (h2 : v < 9223372036854775808) (rest : Bytes) :
    GetI64 (PutI64 v ++ rest) = .ok (v, rest) := by
  have h3 : (0:Int) ≤ v % 18446744073709551616 := Int.emod_nonneg v (by norm_num)
  have h4 : v % 18446744073709551616 < 18446744073709551616 :=
    Int.emod_lt_of_pos v (by norm_num)
  simp only [PutI64, GetI64, List.cons_append, List.nil_append, Except.ok.injEq,
    Prod.mk.injEq, and_true]
  have hw : ((v % 18446744073709551616).toNat : Int) = v % 18446744073709551616 :=
    Int.toNat_of_nonneg h3
  set w := (v % 18446744073709551616).toNat with hwdef
  have hw64 : w < 18446744073709551616 := by omega
  have hrec : ((((((w / 72057594037927936 % 256 * 256 + w / 281474976710656 % 256) * 256
      + w / 1099511627776 % 256) * 256 + w / 4294967296 % 256) * 256 + w / 16777216 % 256) * 256
      + w / 65536 % 256) * 256 + w / 256 % 256) * 256 + w % 256 = w := by omega
  rw [hrec]
  split_ifs with hlt <;> omega

theorem GetString_PutString (s : Bytes) (h : s.length < 4294967296) (rest : Bytes) :
    GetString (PutString s ++ rest) = .ok (s, rest) := by
  simp only [PutString, GetString, List.append_assoc]
  rw [GetU32_PutU32 s.length h (s ++ rest), bind_ok,
    if_neg (by simp only [List.length_append]; omega), List.take_left, List.drop_left]
  rfl

theorem GetBytes_PutBytes (b : Bytes) (h : b.length < 4294967296) (rest : Bytes) :
    GetBytes (PutBytes b ++ rest) = .ok (b, rest) := by
  simp only [PutBytes, GetBytes, List.append_assoc]
  rw [GetU32_PutU32 b.length h (b ++ rest), bind_ok,
    if_neg (by simp only [List.length_append]; omega), List.take_left, List.drop_left]
  rfl

theorem GetOptionalString_PutOptionalString (s : Bytes) (h : s.length < 4294967296)
    (rest : Bytes) :
    GetOptionalString (PutOptionalString s ++ rest) = .ok (s, rest) := by
  by_cases hs : s.isEmpty = true
  · have hnil : s = [] := List.isEmpty_iff.mp hs
    subst hnil
    rw [PutOptionalString, if_pos hs, GetOptionalString]
    rw [GetU8_PutU8 0 (by norm_num), bind_ok]
    simp only [ne_eq, not_true_eq_false, reduceIte]
    rfl
  · rw [PutOptionalString, if_neg hs]
    simp only [GetOptionalString, List.append_assoc]
    rw [GetU8_PutU8 1 (by norm_num), bind_ok]
    simp only [ne_eq, one_ne_zero, not_false_eq_true, reduceIte]
    exact GetString_PutString s h rest

end MessageCodec

namespace MessageCodec

theorem pure_ok {α : Type} (a : α) : (pure a : Except String α) = .ok a := rfl

theorem GetString_PutString_nil (s : Bytes) (h : s.length < 4294967296) :
    GetString (PutString s) = .ok (s, []) := by
  have := GetString_PutString s h []
  rwa [List.append_nil] at this

theorem GetBytes_PutBytes_nil (b : Bytes) (h : b.length < 4294967296) :
    GetBytes (PutBytes b) = .ok (b, []) := by
  have := GetBytes_PutBytes b h []
  rwa [List.append_nil] at this

theorem GetI64_PutI64_nil (v : Int) (h1 : -9223372036854775808 ≤ v)
    (h2 : v < 9223372036854775808) :
    GetI64 (PutI64 v) = .ok (v, []) := by
  have := GetI64_PutI64 v h1 h2 []
  rwa [List.append_nil] at this

end MessageCodec

theorem HandshakeResponse_decode_encode (m : HandshakeResponse)
    (hv : m.version < 4294967296) (hs : m.server_version.length < 4294967296) :
    HandshakeResponse.Decode (m.Encode.drop 4) = .ok m := by
  have e1 := MessageCodec.GetU8_PutU8 2 (by norm_num)
      (MessageCodec.PutU32 m.version ++ MessageCodec.PutString m.server_version)
  have e2 := MessageCodec.GetU32_PutU32 m.version hv (MessageCodec.PutString m.server_version)
  have e3 := MessageCodec.GetString_PutString_nil m.server_version hs
  simp only [HandshakeResponse.Encode, HandshakeResponse.Decode, List.append_assoc,
    MessageCodec.drop4_PutU32, e1, e2, e3, MessageCodec.bind_ok, ne_eq, reduceIte,
    MessageCodec.pure_ok, not_true, if_false]

theorem AuthResponse_decode_encode (m : AuthResponse)
    (hs : m.session_id.length < 4294967296) :
    AuthResponse.Decode (m.Encode.drop 4) = .ok m := by
  rcases m with ⟨succ, sid⟩
  have e1 := MessageCodec.GetU8_PutU8 4 (by norm_num)
      (MessageCodec.PutU8 (if succ then 1 else 0) ++ MessageCodec.PutString sid)
  have hb : (if succ then 1 else 0) < 256 := by split <;> norm_num
  have e2 := MessageCodec.GetU8_PutU8 (if succ then 1 else 0) hb (MessageCodec.PutString sid)
  have e3 := MessageCodec.GetString_PutString_nil sid hs
  simp only [AuthResponse.Encode, AuthResponse.Decode, List.append_assoc,
    MessageCodec.drop4_PutU32, e1, e2, e3, MessageCodec.bind_ok, ne_eq, reduceIte,
    MessageCodec.pure_ok, not_true, if_false]
  cases succ <;> simp

theorem QueryResponseSchema_decode_encode (m : QueryResponseSchema)
    (hb : m.arrow_ipc_schema.length < 4294967296) :
    QueryResponseSchema.Decode (m.Encode.drop 4) = .ok m := by
  have e1 := MessageCodec.GetU8_PutU8 17 (by norm_num) (MessageCodec.PutBytes m.arrow_ipc_schema)
  have e2 := MessageCodec.GetBytes_PutBytes_nil m.arrow_ipc_schema hb
  simp only [QueryResponseSchema.Encode, QueryResponseSchema.Decode, List.append_assoc,
    MessageCodec.drop4_PutU32, e1, e2, MessageCodec.bind_ok, ne_eq, reduceIte,
    MessageCodec.pure_ok, not_true, if_false]

theorem QueryResponseBatch_decode_encode (m : QueryResponseBatch)
    (hb : m.arrow_ipc_batch.length < 4294967296) :
    QueryResponseBatch.Decode (m.Encode.drop 4) = .ok m := by
  have e1 := MessageCodec.GetU8_PutU8 18 (by norm_num) (MessageCodec.PutBytes m.arrow_ipc_batch)
  have e2 := MessageCodec.GetBytes_PutBytes_nil m.arrow_ipc_batch hb
  simp only [QueryResponseBatch.Encode, QueryResponseBatch.Decode, List.append_assoc,
    MessageCodec.drop4_PutU32, e1, e2, MessageCodec.bind_ok, ne_eq, reduceIte,
    MessageCodec.pure_ok, not_true, if_false]

theorem QueryComplete_decode_encode (m : QueryComplete)
    (h1 : -9223372036854775808 ≤ m.rows_affected)
    (h2 : m.rows_affected < 9223372036854775808) :
    QueryComplete.Decode (m.Encode.drop 4) = .ok m := by
  have e1 := MessageCodec.GetU8_PutU8 19 (by norm_num) (MessageCodec.PutI64 m.rows_affected)
  have e2 := MessageCodec.GetI64_PutI64_nil m.rows_affected h1 h2
  simp only [QueryComplete.Encode, QueryComplete.Decode, List.append_assoc,
    MessageCodec.drop4_PutU32, e1, e2, MessageCodec.bind_ok, ne_eq, reduceIte,
    MessageCodec.pure_ok, not_true, if_false]

theorem ErrorMessage_decode_encode (m : ErrorMessage)
    (hc : m.code.length < 4294967296) (hm : m.message.length < 4294967296) :
    ErrorMessage.Decode (m.Encode.drop 4) = .ok m := by
  have e1 := MessageCodec.GetU8_PutU8 255 (by norm_num)
      (MessageCodec.PutString m.code ++ MessageCodec.PutString m.message)
  have e2 := MessageCodec.GetString_PutString m.code hc (MessageCodec.PutString m.message)
  have e3 := MessageCodec.GetString_PutString_nil m.message hm
  simp only [ErrorMessage.Encode, ErrorMessage.Decode, List.append_assoc,
    MessageCodec.drop4_PutU32, e1, e2, e3, MessageCodec.bind_ok, ne_eq, reduceIte,
    MessageCodec.pure_ok, not_true, if_false]

/-- C7: for every in-spec frame of a decodable message type (HandshakeResponse,
AuthResponse, QueryResponseSchema, QueryResponseBatch, QueryComplete,
ErrorMessage), decoding the frame's payload (the bytes after the 4-byte
big-endian length prefix) and re-encoding the resulting message reproduces the
original frame byte-for-byte, including the length prefix. In-spec frames are
those produced by `Encode` from messages whose fields fit the wire widths
(u32 string/bytes lengths, i64 row count). -/
theorem C7_frame_decode_encode_roundtrip :
    (∀ m : HandshakeResponse, m.version < 4294967296 →
      m.server_version.length < 4294967296 →
      ∃ d, HandshakeResponse.Decode (m.Encode.drop 4) = .ok d ∧ d.Encode = m.Encode) ∧
    (∀ m : AuthResponse, m.session_id.length < 4294967296 →
      ∃ d, AuthResponse.Decode (m.Encode.drop 4) = .ok d ∧ d.Encode = m.Encode) ∧
    (∀ m : QueryResponseSchema, m.arrow_ipc_schema.length < 4294967296 →
      ∃ d, QueryResponseSchema.Decode (m.Encode.drop 4) = .ok d ∧ d.Encode = m.Encode) ∧
    (∀ m : QueryResponseBatch, m.arrow_ipc_batch.length < 4294967296 →
      ∃ d, QueryResponseBatch.Decode (m.Encode.drop 4) = .ok d ∧ d.Encode = m.Encode) ∧
    (∀ m : QueryComplete, -9223372036854775808 ≤ m.rows_affected →
      m.rows_affected < 9223372036854775808 →
      ∃ d, QueryComplete.Decode (m.Encode.drop 4) = .ok d ∧ d.Encode = m.Encode) ∧
    (∀ m : ErrorMessage, m.code.length < 4294967296 → m.message.length < 4294967296 →
      ∃ d, ErrorMessage.Decode (m.Encode.drop 4) = .ok d ∧ d.Encode = m.Encode) :=
  ⟨fun m h1 h2 => ⟨m, HandshakeResponse_decode_encode m h1 h2, rfl⟩,
   fun m h1 => ⟨m, AuthResponse_decode_encode m h1, rfl⟩,
   fun m h1 => ⟨m, QueryResponseSchema_decode_encode m h1, rfl⟩,
   fun m h1 => ⟨m, QueryResponseBatch_decode_encode m h1, rfl⟩,
   fun m h1 h2 => ⟨m, QueryComplete_decode_encode m h1 h2, rfl⟩,
   fun m h1 h2 => ⟨m, ErrorMessage_decode_encode m h1 h2, rfl⟩⟩

/-- Witness for C7: the round trip at one concrete message of each type. -/
theorem C7_frame_decode_encode_roundtrip_witness :
    (∃ d, HandshakeResponse.Decode ((HandshakeResponse.Encode ⟨1, strBytes "v1"⟩).drop 4)
        = .ok d ∧ d.Encode = HandshakeResponse.Encode ⟨1, strBytes "v1"⟩) ∧
    (∃ d, AuthResponse.Decode ((AuthResponse.Encode ⟨true, strBytes "sess"⟩).drop 4)
        = .ok d ∧ d.Encode = AuthResponse.Encode ⟨true, strBytes "sess"⟩) ∧
    (∃ d, QueryResponseSchema.Decode ((QueryResponseSchema.Encode ⟨[7, 8]⟩).drop 4)
        = .ok d ∧ d.Encode = QueryResponseSchema.Encode ⟨[7, 8]⟩) ∧
    (∃ d, QueryResponseBatch.Decode ((QueryResponseBatch.Encode ⟨[9]⟩).drop 4)
        = .ok d ∧ d.Encode = QueryResponseBatch.Encode ⟨[9]⟩) ∧
    (∃ d, QueryComplete.Decode ((QueryComplete.Encode ⟨-1⟩).drop 4)
        = .ok d ∧ d.Encode = QueryComplete.Encode ⟨-1⟩) ∧
    (∃ d, ErrorMessage.Decode ((ErrorMessage.Encode ⟨strBytes "E", strBytes "boom"⟩).drop 4)
        = .ok d ∧ d.Encode = ErrorMessage.Encode ⟨strBytes "E", strBytes "boom"⟩) :=
  ⟨C7_frame_decode_encode_roundtrip.1 ⟨1, strBytes "v1"⟩ (by norm_num) (by decide),
   C7_frame_decode_encode_roundtrip.2.1 ⟨true, strBytes "sess"⟩ (by decide),
   C7_frame_decode_encode_roundtrip.2.2.1 ⟨[7, 8]⟩ (by decide),
   C7_frame_decode_encode_roundtrip.2.2.2.1 ⟨[9]⟩ (by decide),
   C7_frame_decode_encode_roundtrip.2.2.2.2.1 ⟨-1⟩ (by norm_num) (by norm_num),
   C7_frame_decode_encode_roundtrip.2.2.2.2.2 ⟨strBytes "E", strBytes "boom"⟩
     (by decide) (by decide)⟩

/-- C10: `AuthRequest::Encode` encodes an empty database string as a single
0x00 presence byte with no string body (identical to an absent optional);
`GetOptionalString` decodes an absent optional back to the empty string; and
decode-then-encode is the identity on this equivalence class (whatever the
absent optional decodes to re-encodes as the single 0x00 byte). -/
theorem C10_empty_database_absent_optional :
    (MessageCodec.PutOptionalString [] = [0]) ∧
    (∀ rest : Bytes, MessageCodec.GetOptionalString (0 :: rest) = .ok ([], rest)) ∧
    (∀ token : Bytes,
      AuthRequest.Encode { token := token, database := [] } =
        MessageCodec.PutU32 (MessageCodec.PutU8 3 ++ MessageCodec.PutString token
          ++ [0]).length ++ (MessageCodec.PutU8 3 ++ MessageCodec.PutString token ++ [0])) ∧
    (∀ rest s rest2, MessageCodec.GetOptionalString (0 :: rest) = .ok (s, rest2) →
      MessageCodec.PutOptionalString s = [0]) := by
  refine ⟨rfl, fun rest => rfl, fun token => ?_, fun rest s rest2 h => ?_⟩
  · simp [AuthRequest.Encode, MessageCodec.PutOptionalString, MessageCodec.PutU8]
  · have hs : s = [] := by
      have : MessageCodec.GetOptionalString (0 :: rest) = .ok ([], rest) := rfl
      rw [this] at h
      exact (Prod.mk.injEq _ _ _ _ ▸ (Except.ok.injEq _ _ ▸ h)).1.symm ▸ rfl
    rw [hs]
    rfl

/-- Witness for C10: the decode-then-encode identity at a concrete absent
optional on the wire. -/
theorem C10_empty_database_absent_optional_witness :
    MessageCodec.PutOptionalString [] = [0] ∧
    MessageCodec.GetOptionalString [0, 5, 6] = .ok ([], [5, 6]) ∧
    MessageCodec.PutOptionalString ([] : Bytes) = [0] :=
  ⟨C10_empty_database_absent_optional.1,
   C10_empty_database_absent_optional.2.1 [5, 6],
   C10_empty_database_absent_optional.2.2.2 [5, 6] [] [5, 6]
     (C10_empty_database_absent_optional.2.1 [5, 6])⟩

/-! ### Framed-transport theorems (C6, C9) -/

/-- C6: a big-endian length prefix of exactly 100 MiB (104857600, bytes
06 40 00 00) is accepted by `ReadMessage` (the payload is read and returned),
while a prefix of 100 MiB + 1 is rejected with the invalid-length error (the
spec's `Protocol` kind) and no payload is returned. -/
theorem C6_frame_size_cap :
    (∀ rest : Bytes, 104857600 ≤ rest.length →
      readMessage (6 :: 64 :: 0 :: 0 :: rest) =
        .ok (6 :: 64 :: 0 :: 0 :: rest.take 104857600) (rest.drop 104857600)) ∧
    (∀ rest : Bytes, readMessage (6 :: 64 :: 0 :: 1 :: rest) =
      .fail (strBytes ("Invalid message length: " ++ toString 104857601))) := by
  have h6400 : ((6 * 256 + 64) * 256 + 0) * 256 + 0 = 104857600 := by norm_num
  have h6401 : ((6 * 256 + 64) * 256 + 0) * 256 + 1 = 104857601 := by norm_num
  constructor
  · intro rest hlen
    simp only [readMessage, h6400]
    rw [if_neg (by omega), if_neg (by omega)]
  · intro rest
    simp only [readMessage, h6401]
    rw [if_pos (Or.inr (by norm_num))]

/-- Witness for C6: the 100 MiB boundary at concrete frames. -/
theorem C6_frame_size_cap_witness :
    readMessage (6 :: 64 :: 0 :: 0 :: List.replicate 104857600 0) =
      .ok (6 :: 64 :: 0 :: 0 :: (List.replicate 104857600 0).take 104857600)
          ((List.replicate 104857600 0).drop 104857600) ∧
    readMessage [6, 64, 0, 1] =
      .fail (strBytes ("Invalid message length: " ++ toString 104857601)) :=
  ⟨C6_frame_size_cap.1 (List.replicate 104857600 0) (by rw [List.length_replicate]),
   C6_frame_size_cap.2 []⟩

/-- C9: an inbound frame whose big-endian length prefix is 0 is rejected by
`ReadMessage` with the same "Invalid message length" error used for oversized
frames, and no payload is returned (the function returns the empty vector). -/
theorem C9_zero_length_frame_rejected :
    ∀ rest : Bytes, readMessage (0 :: 0 :: 0 :: 0 :: rest) =
      .fail (strBytes "Invalid message length: 0") := by
  intro rest
  simp only [readMessage]
  rw [if_pos (Or.inl (by norm_num))]
  rfl

/-! ### `ExecuteQuery` theorems (C1, C4, C5) -/

/-- A well-formed frame on the front of the inbound bytes is read back intact
by `ReadMessage`, leaving the remaining bytes. -/
theorem readMessage_frame (payload extra : Bytes) (hne : payload ≠ [])
    (hcap : payload.length ≤ 104857600) :
    readMessage (MessageCodec.PutU32 payload.length ++ payload ++ extra) =
      .ok (MessageCodec.PutU32 payload.length ++ payload) extra := by
  have h32 : payload.length < 4294967296 := by omega
  have hpos : 0 < payload.length := List.length_pos.mpr hne
  simp only [MessageCodec.PutU32, List.cons_append, List.nil_append, readMessage,
    List.append_assoc]
  have hrec : ((payload.length / 16777216 % 256 * 256 + payload.length / 65536 % 256) * 256
      + payload.length / 256 % 256) * 256 + payload.length % 256 = payload.length := by
    omega
  rw [hrec]
  rw [if_neg (by omega), if_neg (by simp only [List.length_append]; omega)]
  rw [List.take_left, List.drop_left]

/-- C1 counterexample: with a connected but unauthenticated client, the call
returns a non-OK status while the caller-supplied stream handle is still the
caller's original (uninitialized) value — it was not zero-initialized before
the error was returned. -/
theorem C1_counterexample_early_error_leaves_stream_uninit :
    (NativeClient.ExecuteQuery ⟨3, false, [], []⟩ [] .ok [] .uninit).status ≠ .ok ∧
    (NativeClient.ExecuteQuery ⟨3, false, [], []⟩ [] .ok [] .uninit).out = .uninit ∧
    StreamState.uninit ≠ StreamState.zeroed := by
  refine ⟨by decide, rfl, by decide⟩

/-- C1 amended: the stream handle is zero-initialized before any error
returned after the query request has been successfully written; the
precondition failures (not connected, not authenticated) and a write failure
return earlier with the handle untouched. -/
theorem C1_stream_zeroed_before_post_write_errors (c : NativeClient)
    (sql inbound : Bytes) (out0 : StreamState)
    (hconn : c.IsConnected = true) (hauth : c.authenticated = true)
    (hne : (c.ExecuteQuery sql .ok inbound out0).status ≠ .ok) :
    (c.ExecuteQuery sql .ok inbound out0).out = .zeroed := by
  unfold NativeClient.ExecuteQuery at hne ⊢
  rw [hconn, hauth] at hne ⊢
  simp only [Bool.not_true, Bool.false_eq_true, if_false, ne_eq, not_true_eq_false,
    reduceIte] at hne ⊢
  rcases hq : QueryLoop inbound [] with ⟨acc, rest⟩ | ⟨st, msg⟩
  · rw [hq] at hne
    by_cases hacc : acc.isEmpty
    · simp [hacc]
    · simp only [hacc, Bool.false_eq_true, if_false] at hne ⊢
      rcases hi : CubeArrowReader.Init acc with e | reader
      · rfl
      · rw [hi] at hne
        exact absurd rfl hne
  · rfl

/-- Witness for C1 (amended): an empty inbound stream makes the receive loop
fail after the write, and the handle is zeroed. -/
theorem C1_stream_zeroed_before_post_write_errors_witness :
    (NativeClient.ExecuteQuery ⟨3, true, [], []⟩ [] .ok [] .uninit).out = .zeroed :=
  C1_stream_zeroed_before_post_write_errors ⟨3, true, [], []⟩ [] [] .uninit rfl rfl
    (by decide)

/-- C4: when the server answers the query with an Error frame, `ExecuteQuery`
returns status UNKNOWN with the error message
`Query error [<code>]: <message>` (server code and message verbatim), and the
client state is unchanged — the socket is not closed and the session stays
authenticated. -/
theorem C4_error_frame_surfaced_connection_usable (c : NativeClient)
    (sql code msg extra : Bytes) (out0 : StreamState)
    (hconn : c.IsConnected = true) (hauth : c.authenticated = true)
    (hcap : 9 + code.length + msg.length ≤ 104857600) :
    (c.ExecuteQuery sql .ok (ErrorMessage.Encode ⟨code, msg⟩ ++ extra) out0).status
        = .unknown ∧
    (c.ExecuteQuery sql .ok (ErrorMessage.Encode ⟨code, msg⟩ ++ extra) out0).errMsg
        = some (strBytes "Query error [" ++ code ++ strBytes "]: " ++ msg) ∧
    (c.ExecuteQuery sql .ok (ErrorMessage.Encode ⟨code, msg⟩ ++ extra) out0).client = c := by
  have hc32 : code.length < 4294967296 := by omega
  have hm32 : msg.length < 4294967296 := by omega
  have hpayload :
      (MessageCodec.PutU8 255 ++ MessageCodec.PutString code
        ++ MessageCodec.PutString msg).length = 9 + code.length + msg.length := by
    simp [MessageCodec.PutU8, MessageCodec.PutString, MessageCodec.PutU32]
    omega
  have hframe := readMessage_frame
      (MessageCodec.PutU8 255 ++ MessageCodec.PutString code ++ MessageCodec.PutString msg)
      extra (by simp [MessageCodec.PutU8]) (by rw [hpayload]; exact hcap)
  have hloop : QueryLoop (ErrorMessage.Encode ⟨code, msg⟩ ++ extra) [] =
      .fail .unknown (strBytes "Query error [" ++ code ++ strBytes "]: " ++ msg) := by
    unfold QueryLoop
    rw [QueryLoopF]
    simp only [ErrorMessage.Encode]
    rw [hframe]
    have hget4 : (MessageCodec.PutU32 (MessageCodec.PutU8 255 ++ MessageCodec.PutString code
        ++ MessageCodec.PutString msg).length ++ (MessageCodec.PutU8 255
        ++ MessageCodec.PutString code ++ MessageCodec.PutString msg)).getD 4 0 = 255 := by
      simp [MessageCodec.PutU32, MessageCodec.PutU8]
    have hlen5 : ¬ (MessageCodec.PutU32 (MessageCodec.PutU8 255 ++ MessageCodec.PutString code
        ++ MessageCodec.PutString msg).length ++ (MessageCodec.PutU8 255
        ++ MessageCodec.PutString code ++ MessageCodec.PutString msg)).length < 5 := by
      simp only [List.length_append, hpayload, MessageCodec.PutU32, List.length_cons,
        List.length_nil]
      omega
    have hdec : ErrorMessage.Decode ((MessageCodec.PutU32 (MessageCodec.PutU8 255
        ++ MessageCodec.PutString code ++ MessageCodec.PutString msg).length
        ++ (MessageCodec.PutU8 255 ++ MessageCodec.PutString code
        ++ MessageCodec.PutString msg)).drop 4) = .ok ⟨code, msg⟩ := by
      rw [MessageCodec.drop4_PutU32]
      have := ErrorMessage_decode_encode ⟨code, msg⟩ hc32 hm32
      simp only [ErrorMessage.Encode, MessageCodec.drop4_PutU32] at this
      exact this
    simp only [hget4, reduceIte, hlen5, if_false, hdec]
    simp
  unfold NativeClient.ExecuteQuery
  rw [hconn, hauth, hloop]
  simp

/-- Witness for C4: a concrete server error `QUERY_ERROR`. -/
theorem C4_error_frame_surfaced_connection_usable_witness :
    (NativeClient.ExecuteQuery ⟨3, true, [], []⟩ (strBytes "SELECT 1") .ok
        (ErrorMessage.Encode ⟨strBytes "QUERY_ERROR", strBytes "nonexistent_table not found"⟩
          ++ []) .uninit).status = .unknown ∧
    (NativeClient.ExecuteQuery ⟨3, true, [], []⟩ (strBytes "SELECT 1") .ok
        (ErrorMessage.Encode ⟨strBytes "QUERY_ERROR", strBytes "nonexistent_table not found"⟩
          ++ []) .uninit).errMsg
      = some (strBytes "Query error [" ++ strBytes "QUERY_ERROR" ++ strBytes "]: "
          ++ strBytes "nonexistent_table not found") ∧
    (NativeClient.ExecuteQuery ⟨3, true, [], []⟩ (strBytes "SELECT 1") .ok
        (ErrorMessage.Encode ⟨strBytes "QUERY_ERROR", strBytes "nonexistent_table not found"⟩
          ++ []) .uninit).client = ⟨3, true, [], []⟩ :=
  C4_error_frame_surfaced_connection_usable ⟨3, true, [], []⟩ (strBytes "SELECT 1")
    (strBytes "QUERY_ERROR") (strBytes "nonexistent_table not found") [] .uninit
    rfl rfl (by decide)

/-- C5 counterexample: on a connected but unauthenticated client the query
fails with status UNAUTHENTICATED, which is not the INVALID_STATE status the
claim asserts. -/
theorem C5_counterexample_status_is_unauthenticated :
    (NativeClient.ExecuteQuery ⟨3, false, [], []⟩ (strBytes "SELECT 1") .ok [] .uninit).status
        = .unauthenticated ∧
    AdbcStatusCode.unauthenticated ≠ AdbcStatusCode.invalidState := by
  exact ⟨rfl, by decide⟩

/-- C5 amended: executing a query on a session that is connected but not
authenticated fails with an Unauthenticated error (`ADBC_STATUS_UNAUTHENTICATED`,
message "Not authenticated"), not InvalidState. -/
theorem C5_query_before_auth_unauthenticated (c : NativeClient) (sql inbound : Bytes)
    (wr : AdbcStatusCode) (out0 : StreamState)
    (hconn : c.IsConnected = true) (hauth : c.authenticated = false) :
    (c.ExecuteQuery sql wr inbound out0).status = .unauthenticated ∧
    (c.ExecuteQuery sql wr inbound out0).errMsg = some (strBytes "Not authenticated") := by
  unfold NativeClient.ExecuteQuery
  rw [hconn, hauth]
  simp

/-- Witness for C5 (amended): a concrete connected, unauthenticated client. -/
theorem C5_query_before_auth_unauthenticated_witness :
    (NativeClient.ExecuteQuery ⟨3, false, [], []⟩ (strBytes "SELECT 1") .ok [] .uninit).status
        = .unauthenticated ∧
    (NativeClient.ExecuteQuery ⟨3, false, [], []⟩ (strBytes "SELECT 1") .ok [] .uninit).errMsg
        = some (strBytes "Not authenticated") :=
  C5_query_before_auth_unauthenticated ⟨3, false, [], []⟩ (strBytes "SELECT 1") [] .ok .uninit
    rfl rfl

/-! ### SQL-type mapping theorems (C8) -/

theorem isspaceByte_tolowerByte (c : Nat) :
    isspaceByte (tolowerByte c) = isspaceByte c := by
  unfold tolowerByte isspaceByte
  split_ifs with h
  · simp only [decide_eq_decide]
    omega
  · rfl

theorem tolowerByte_idem (c : Nat) : tolowerByte (tolowerByte c) = tolowerByte c := by
  unfold tolowerByte
  split_ifs <;> omega

theorem dropWhile_map_tolower (l : Bytes) :
    (l.map tolowerByte).dropWhile isspaceByte = (l.dropWhile isspaceByte).map tolowerByte := by
  rw [List.dropWhile_map,
    show isspaceByte ∘ tolowerByte = isspaceByte from funext isspaceByte_tolowerByte]

theorem rdropWhile_map_tolower (l : Bytes) :
    List.rdropWhile isspaceByte (l.map tolowerByte) =
      (List.rdropWhile isspaceByte l).map tolowerByte := by
  unfold List.rdropWhile
  rw [← List.map_reverse, dropWhile_map_tolower, List.map_reverse]

theorem NormalizeTypeName_eq_rdropWhile (s : Bytes) :
    NormalizeTypeName s =
      (List.rdropWhile isspaceByte (s.dropWhile isspaceByte)).map tolowerByte := rfl

theorem trimmed_dropWhile (s : Bytes) :
    (List.rdropWhile isspaceByte (s.dropWhile isspaceByte)).dropWhile isspaceByte =
      List.rdropWhile isspaceByte (s.dropWhile isspaceByte) := by
  rw [List.dropWhile_eq_self_iff]
  intro hl
  have hpre : List.rdropWhile isspaceByte (s.dropWhile isspaceByte) <+: s.dropWhile isspaceByte :=
    List.rdropWhile_prefix _ _
  have hlen : 0 < (s.dropWhile isspaceByte).length := lt_of_lt_of_le hl hpre.length_le
  have hne : s.dropWhile isspaceByte ≠ [] := by
    intro h0
    rw [h0] at hlen
    exact absurd hlen (by simp)
  have hget : (List.rdropWhile isspaceByte (s.dropWhile isspaceByte)).get ⟨0, hl⟩
      = (s.dropWhile isspaceByte).get ⟨0, hlen⟩ := by
    simpa using hpre.getElem hl
  rw [hget]
  have hhead := List.head_dropWhile_not isspaceByte (l := s) hne
  simpa [List.head_eq_getElem] using hhead

theorem NormalizeTypeName_idem (s : Bytes) :
    NormalizeTypeName (NormalizeTypeName s) = NormalizeTypeName s := by
  rw [NormalizeTypeName_eq_rdropWhile, NormalizeTypeName_eq_rdropWhile,
    dropWhile_map_tolower, trimmed_dropWhile, rdropWhile_map_tolower,
    List.rdropWhile_idempotent, List.map_map,
    show tolowerByte ∘ tolowerByte = tolowerByte from funext tolowerByte_idem]

theorem mapNormalized_unrecognized (n : Bytes) (h : n ∉ recognizedTypeNames) :
    MapNormalizedType n = .binary := by
  simp only [recognizedTypeNames, List.mem_cons, List.not_mem_nil, or_false, not_or] at h
  obtain ⟨h1, h2, h3, h4, h5, h6, h7, h8, h9, h10, h11, h12, h13, h14, h15, h16, h17, h18, h19, h20, h21, h22, h23, h24, h25, h26, h27, h28, h29, h30, h31, h32, h33, h34, h35, h36, h37, h38, h39, h40, h41, h42, h43, h44, h45, h46, h47, h48⟩ := h
  simp only [MapNormalizedType, h1, h2, h3, h4, h5, h6, h7, h8, h9, h10, h11, h12, h13, h14, h15, h16, h17, h18, h19, h20, h21, h22, h23, h24, h25, h26, h27, h28, h29, h30, h31, h32, h33, h34, h35, h36, h37, h38, h39, h40, h41, h42, h43, h44, h45, h46, h47, h48,
    or_self, or_false, false_or, if_false]

/-- C8: `MapCubeTypeToArrowType` is invariant under case and surrounding
whitespace (mapping a name equals mapping its lowercased, trimmed form); the
recognized names map to their canonical Arrow types as listed in the spec —
in particular numeric, decimal, number, json, jsonb and uuid map to string —
and every name whose normalized form is unrecognized maps to binary. -/
theorem C8_map_cube_type_invariance_and_table :
    (∀ T : Bytes, MapCubeTypeToArrowType T = MapCubeTypeToArrowType (NormalizeTypeName T)) ∧
    (MapCubeTypeToArrowType (strBytes "bigint") = .int64 ∧
      MapCubeTypeToArrowType (strBytes "int8") = .int64 ∧
      MapCubeTypeToArrowType (strBytes "integer") = .int32 ∧
      MapCubeTypeToArrowType (strBytes "int") = .int32 ∧
      MapCubeTypeToArrowType (strBytes "int4") = .int32 ∧
      MapCubeTypeToArrowType (strBytes "smallint") = .int16 ∧
      MapCubeTypeToArrowType (strBytes "int2") = .int16 ∧
      MapCubeTypeToArrowType (strBytes "tinyint") = .int8 ∧
      MapCubeTypeToArrowType (strBytes "int1") = .int8 ∧
      MapCubeTypeToArrowType (strBytes "ubigint") = .uint64 ∧
      MapCubeTypeToArrowType (strBytes "uint8") = .uint64 ∧
      MapCubeTypeToArrowType (strBytes "uinteger") = .uint32 ∧
      MapCubeTypeToArrowType (strBytes "uint") = .uint32 ∧
      MapCubeTypeToArrowType (strBytes "uint4") = .uint32 ∧
      MapCubeTypeToArrowType (strBytes "usmallint") = .uint16 ∧
      MapCubeTypeToArrowType (strBytes "uint2") = .uint16 ∧
      MapCubeTypeToArrowType (strBytes "utinyint") = .uint8 ∧
      MapCubeTypeToArrowType (strBytes "uint1") = .uint8 ∧
      MapCubeTypeToArrowType (strBytes "double") = .double ∧
      MapCubeTypeToArrowType (strBytes "double precision") = .double ∧
      MapCubeTypeToArrowType (strBytes "float8") = .double ∧
      MapCubeTypeToArrowType (strBytes "real") = .float ∧
      MapCubeTypeToArrowType (strBytes "float") = .float ∧
      MapCubeTypeToArrowType (strBytes "float4") = .float ∧
      MapCubeTypeToArrowType (strBytes "boolean") = .bool ∧
      MapCubeTypeToArrowType (strBytes "bool") = .bool ∧
      MapCubeTypeToArrowType (strBytes "varchar") = .string ∧
      MapCubeTypeToArrowType (strBytes "character varying") = .string ∧
      MapCubeTypeToArrowType (strBytes "text") = .string ∧
      MapCubeTypeToArrowType (strBytes "char") = .string ∧
      MapCubeTypeToArrowType (strBytes "string") = .string ∧
      MapCubeTypeToArrowType (strBytes "bytea") = .binary ∧
      MapCubeTypeToArrowType (strBytes "binary") = .binary ∧
      MapCubeTypeToArrowType (strBytes "varbinary") = .binary ∧
      MapCubeTypeToArrowType (strBytes "date") = .date32 ∧
      MapCubeTypeToArrowType (strBytes "time") = .time64 ∧
      MapCubeTypeToArrowType (strBytes "time without time zone") = .time64 ∧
      MapCubeTypeToArrowType (strBytes "time with time zone") = .time64 ∧
      MapCubeTypeToArrowType (strBytes "timestamp") = .timestamp ∧
      MapCubeTypeToArrowType (strBytes "timestamp without time zone") = .timestamp ∧
      MapCubeTypeToArrowType (strBytes "timestamp with time zone") = .timestamp ∧
      MapCubeTypeToArrowType (strBytes "timestamptz") = .timestamp ∧
      MapCubeTypeToArrowType (strBytes "numeric") = .string ∧
      MapCubeTypeToArrowType (strBytes "decimal") = .string ∧
      MapCubeTypeToArrowType (strBytes "number") = .string ∧
      MapCubeTypeToArrowType (strBytes "json") = .string ∧
      MapCubeTypeToArrowType (strBytes "jsonb") = .string ∧
      MapCubeTypeToArrowType (strBytes "uuid") = .string) ∧
    (∀ T : Bytes, NormalizeTypeName T ∉ recognizedTypeNames →
      MapCubeTypeToArrowType T = .binary) := by
  refine ⟨fun T => ?_, ?_, fun T h => mapNormalized_unrecognized _ h⟩
  · show MapNormalizedType (NormalizeTypeName T)
        = MapNormalizedType (NormalizeTypeName (NormalizeTypeName T))
    rw [NormalizeTypeName_idem]
  · decide

/-- Witness for C8: invariance at a concrete mixed-case padded name, the table
at a concrete recognized name, and the binary fallback at a concrete
unrecognized name. -/
theorem C8_map_cube_type_invariance_and_table_witness :
    MapCubeTypeToArrowType (strBytes "  BigInt ")
      = MapCubeTypeToArrowType (NormalizeTypeName (strBytes "  BigInt ")) ∧
    MapCubeTypeToArrowType (strBytes "uuid") = .string ∧
    MapCubeTypeToArrowType (strBytes "wibble") = .binary :=
  ⟨C8_map_cube_type_invariance_and_table.1 (strBytes "  BigInt "),
   C8_map_cube_type_invariance_and_table.2.1.2.2.2.2.2.2.2.2.2.2.2.2.2.2.2.2.2.2.2.2.2.2.2.2.2.2.2.2.2.2.2.2.2.2.2.2.2.2.2.2.2.2.2.2.2.2.2,
   C8_map_cube_type_invariance_and_table.2.2 (strBytes "wibble") (by decide)⟩

/-! ### Arrow IPC reader theorems (C2, C3) -/

theorem appendCells_length (rc : Nat) (v : Option (Bytes × Nat)) (f : Nat → Bytes) :
    (appendCells rc v f).length = rc := by
  simp [appendCells]

theorem finishArray_length (cells : List Cell) :
    (finishArray cells).length = cells.length := rfl

theorem finishArray_children (cells : List Cell) :
    (finishArray cells).children = [] := rfl

theorem BuildArrayForField_length {t : ArrowTypeT} {rc : Nat}
    {buffers : List (Nat × Nat)} {body : Bytes} {bi : Nat} {arr : ArrowArrayT} {bi2 : Nat}
    (h : BuildArrayForField t rc buffers body bi = .ok (arr, bi2)) :
    arr.length = rc := by
  cases t <;>
    simp only [BuildArrayForField, buildFixedWidth, buildBoolArray, buildVarLen,
      Except.ok.injEq, Prod.mk.injEq, reduceCtorEq] at h <;>
    rw [← h.1] <;>
    rw [finishArray_length, appendCells_length]

theorem BuildChildren_spec {rc : Nat} {buffers : List (Nat × Nat)} {body : Bytes} :
    ∀ (types : List ArrowTypeT) (bi : Nat) (kids : List ArrowArrayT) (bi2 : Nat),
      BuildChildren types rc buffers body bi = .ok (kids, bi2) →
      kids.length = types.length ∧ ∀ a ∈ kids, a.length = rc := by
  intro types
  induction types with
  | nil =>
      intro bi kids bi2 h
      simp only [BuildChildren, Except.ok.injEq, Prod.mk.injEq] at h
      rw [← h.1]
      simp
  | cons t rest ih =>
      intro bi kids bi2 h
      simp only [BuildChildren] at h
      rcases hb : BuildArrayForField t rc buffers body bi with e | ⟨arr, bi3⟩ <;>
        rw [hb] at h
      · simp at h
      · dsimp only at h
        rcases hc : BuildChildren rest rc buffers body bi3 with e | ⟨kids2, bi4⟩ <;>
          rw [hc] at h
        · simp at h
        · simp only [Except.ok.injEq, Prod.mk.injEq] at h
          obtain ⟨hk, _⟩ := h
          obtain ⟨ihlen, ihmem⟩ := ih bi3 kids2 bi4 hc
          subst hk
          refine ⟨by simp [ihlen], ?_⟩
          intro a ha
          rcases List.mem_cons.mp ha with rfl | ha2
          · exact BuildArrayForField_length hb
          · exact ihmem a ha2

theorem ParseRecordBatch_spec {r : CubeArrowReader} {fb body : Bytes} {arr : ArrowArrayT}
    {L : Nat} {bufs : List (Nat × Nat)}
    (hfb : parseFBMessage fb = some (.recordBatch L bufs))
    (h : ParseRecordBatchFlatBuffer r fb body = .ok arr) :
    arr.length = L ∧ arr.children.length = r.field_types.length ∧
      ∀ a ∈ arr.children, a.length = L := by
  unfold ParseRecordBatchFlatBuffer at h
  rw [hfb] at h
  dsimp only at h
  rcases hc : BuildChildren r.field_types L bufs body 0 with e | ⟨kids, bi2⟩ <;>
    rw [hc] at h
  · simp at h
  · simp only [Except.ok.injEq] at h
    obtain ⟨hlen, hmem⟩ := BuildChildren_spec r.field_types 0 kids bi2 hc
    rw [← h]
    exact ⟨rfl, by simpa [ArrowArrayT.children] using hlen,
      by simpa [ArrowArrayT.children] using hmem⟩

theorem ParseSchema_ok_spec {fb : Bytes} {names : List Bytes} {types : List ArrowTypeT}
    {nullable : List Bool}
    (h : ParseSchemaFlatBuffer fb = .ok (names, types, nullable)) :
    ∃ flds, parseFBMessage fb = some (.schema flds) ∧
      names = flds.map (fun f => f.name) ∧
      types = flds.map (fun f => MapFlatBufferTypeToArrow f.type_type) := by
  unfold ParseSchemaFlatBuffer at h
  rcases hp : parseFBMessage fb with _ | (flds | ⟨L, bufs⟩) <;> rw [hp] at h
  · simp at h
  · dsimp only at h
    split at h
    · simp at h
    · simp only [Except.ok.injEq, Prod.mk.injEq] at h
      exact ⟨flds, rfl, h.1.symm, h.2.1.symm⟩
  · simp at h

theorem Init_ok_spec {buf : Bytes} {r : CubeArrowReader}
    (h : CubeArrowReader.Init buf = .ok r) :
    r.buffer = buf ∧ r.schema_initialized = true ∧ r.finished = false ∧
      ∃ flds, parseFBMessage ((buf.drop 8).take (readLE32 buf 4)) = some (.schema flds) ∧
        r.field_names = flds.map (fun f => f.name) ∧
        r.field_types = flds.map (fun f => MapFlatBufferTypeToArrow f.type_type) := by
  unfold CubeArrowReader.Init at h
  split at h
  · simp at h
  · split at h
    · simp at h
    · dsimp only at h
      split at h
      · simp at h
      · rcases hs : ParseSchemaFlatBuffer ((buf.drop 8).take (readLE32 buf 4))
            with e | ⟨names, types, nullable⟩ <;> rw [hs] at h
        · simp at h
        · dsimp only at h
          simp only [Except.ok.injEq] at h
          obtain ⟨flds, hp, hn, ht⟩ := ParseSchema_ok_spec hs
          rw [← h]
          exact ⟨rfl, rfl, rfl, flds, hp, hn, ht⟩

/-- C3: for every successfully parsed Schema-plus-RecordBatch IPC sequence,
the first `get_next` yields a struct array whose `length` equals the
RecordBatch's length field and whose number of children equals the number of
Schema fields, with every child's length equal to the parent's; and the
subsequent stream `get_next` zeroes the output array (null release) and
returns success — the end-of-stream convention. -/
theorem C3_batch_shape_and_eos (buf : Bytes) (reader r2 : CubeArrowReader)
    (arr : ArrowArrayT) (L : Nat) (bufs : List (Nat × Nat))
    (hInit : CubeArrowReader.Init buf = .ok reader)
    (hBatch : parseFBMessage ((reader.buffer.drop (reader.offset + 8)).take
        (readLE32 reader.buffer (reader.offset + 4))) = some (.recordBatch L bufs))
    (hNext : reader.GetNext = ⟨NANOARROW_OK, some arr, r2⟩) :
    arr.length = L ∧
    (∃ flds, parseFBMessage ((buf.drop 8).take (readLE32 buf 4)) = some (.schema flds) ∧
      arr.children.length = flds.length) ∧
    (∀ a ∈ arr.children, a.length = arr.length) ∧
    CubeArrowStreamGetNext r2 = (.eosZeroed, r2) := by
  obtain ⟨hbuf, hsi, hfin, flds, hp, hn, ht⟩ := Init_ok_spec hInit
  unfold CubeArrowReader.GetNext at hNext
  rw [hsi, hfin] at hNext
  simp only [not_true_eq_false, if_false, Bool.false_eq_true, reduceIte] at hNext
  split at hNext
  · simp [NANOARROW_OK, ENOMSG] at hNext
  · split at hNext
    · split at hNext <;> simp [NANOARROW_OK, ENOMSG] at hNext
    · rcases hpr : ParseRecordBatchFlatBuffer reader
          ((reader.buffer.drop (reader.offset + 8)).take
            (readLE32 reader.buffer (reader.offset + 4)))
          (reader.buffer.drop
            (if (reader.offset + (8 + readLE32 reader.buffer (reader.offset + 4))) % 8 ≠ 0 then
              reader.offset + (8 + readLE32 reader.buffer (reader.offset + 4))
                + (8 - (reader.offset + (8 + readLE32 reader.buffer (reader.offset + 4))) % 8)
            else reader.offset + (8 + readLE32 reader.buffer (reader.offset + 4))))
          with e | arr2 <;> rw [hpr] at hNext
      · simp [NANOARROW_OK, ENOMSG] at hNext
      · simp only [GetNextResult.mk.injEq, Option.some.injEq] at hNext
        obtain ⟨-, harr, hr2⟩ := hNext
        subst harr
        obtain ⟨hlen, hchild, hmem⟩ := ParseRecordBatch_spec hBatch hpr
        refine ⟨hlen, ⟨flds, hp, ?_⟩, ?_, ?_⟩
        · rw [hchild, ht, List.length_map]
        · intro a ha
          rw [hlen]
          exact hmem a ha
        · subst hr2
          unfold CubeArrowStreamGetNext CubeArrowReader.GetNext
          simp [hsi, ENOMSG, NANOARROW_OK]

/-- C2: the code's actual behavior on a valid Schema followed immediately by
the end-of-stream marker (continuation 0xFFFFFFFF then a zero length) and no
RecordBatch. `Init` succeeds and `GetSchema` succeeds, but the first stream
`get_next` returns EINVAL — the source's EOS test is nested inside the
`continuation != MAGIC` branch where it can never fire, so the zero-length
word falls into `ParseRecordBatchFlatBuffer`, whose FlatBuffer verification of
an empty buffer fails — instead of signalling end-of-stream with no error as
the claim states. -/
theorem C2_schema_eos_first_get_next_errors :
    CubeArrowReader.Init c2buf = .ok c2reader ∧
    c2reader.GetSchema = .ok ([strBytes "a"], [.string], [true]) ∧
    (CubeArrowStreamGetNext c2reader).fst = .err EINVAL ∧
    ∀ arr, StreamNextOut.err EINVAL ≠ .eosZeroed ∧ StreamNextOut.err EINVAL ≠ .batch arr := by
  refine ⟨by rfl, by rfl, by rfl, fun arr => ⟨fun h => ?_, fun h => ?_⟩⟩ <;>
    exact StreamNextOut.noConfusion h

/-- Witness for C3: the shape properties at the concrete Schema + one-row
INT64 RecordBatch sequence `c3buf`. -/
theorem C3_batch_shape_and_eos_witness :
    c3arr.length = 1 ∧
    (∃ flds, parseFBMessage ((c3buf.drop 8).take (readLE32 c3buf 4)) = some (.schema flds) ∧
      c3arr.children.length = flds.length) ∧
    (∀ a ∈ c3arr.children, a.length = c3arr.length) ∧
    CubeArrowStreamGetNext { c3reader with finished := true } =
      (.eosZeroed, { c3reader with finished := true }) :=
  C3_batch_shape_and_eos c3buf c3reader { c3reader with finished := true } c3arr 1
    [(0, 1), (8, 8)] (by rfl) (by rfl) (by rfl)
